import Mathlib

/- Shallow embedding of the beatparakeet generative scheduling engine.

   Sources modelled:
   - the lookahead scheduler (`createScheduler`): state, `swingOffset`,
     `advance`, the `schedule` polling loop, `start`, `setSwing`;
   - `Techno.jsx`: `ARRANGEMENT`, `TOTAL_BARS`, the chord library and
     `CHORD_SEQUENCE`, `NOTE_INDEX` / `NOTE_NAMES_SHARP` /
     `noteToMidi` / `midiToNote` / `transpose`, `getSectionForBar`,
     the lead-note index clamp of `triggerLead`, and the one-shot fade
     logic of `handleBar`;
   - `App.jsx`: `MINOR_POOLS`, `CHANGE_EVERY_BARS` and the
     progression-selection step of `onBar`.

   Clock times, tempi and gains are rationals; callbacks that may throw
   are modelled as `Except`-valued functions whose outcome the scheduler
   records but (mirroring the `try { ... } catch {}` in the source)
   never lets influence the loop. -/

/-- Mutable state of the scheduler closure: `nextNoteTime` (absolute clock
time of the next 16th), `current16th` (0..15) and `barCount`. -/
structure SchedState where
  nextNoteTime : ℚ
  current16th : ℕ
  barCount : ℕ
deriving DecidableEq

/-- `secondsPerBeat = 60.0 / bpm`. -/
def secondsPerBeat (bpm : ℚ) : ℚ := 60 / bpm

/-- `sixteenthDur = 0.25 * secondsPerBeat()`. -/
def sixteenthDur (bpm : ℚ) : ℚ := (1 / 4) * secondsPerBeat bpm

/-- `swingOffset(ix16)`: zero when swing is falsy, otherwise delays the
8th-note offbeats (16th indices with `ix16 % 4 === 2`) by
`swing * sixteenthDur()`. -/
def swingOffset (bpm swing : ℚ) (ix16 : ℕ) : ℚ :=
  if swing = 0 then 0
  else if ix16 % 4 = 2 then swing * sixteenthDur bpm else 0

/-- `advance()`: push `nextNoteTime` one 16th ahead, step `current16th`
modulo 16, bump `barCount` when the slot wraps to 0. -/
def advance (bpm : ℚ) (s : SchedState) : SchedState :=
  ⟨s.nextNoteTime + (1 / 4) * secondsPerBeat bpm,
   (s.current16th + 1) % 16,
   s.barCount + (if (s.current16th + 1) % 16 = 0 then 1 else 0)⟩

/-- One `onSixteenth(tSwing, current16th, barCount)` invocation: the
swing-adjusted time, the slot, the bar, and whether the callback returned
normally (`false` = it threw; the loop catches and continues). -/
structure SixEv where
  t : ℚ
  slot : ℕ
  bar : ℕ
  ok : Bool
deriving DecidableEq

/-- One `onBar(nextNoteTime, barCount)` invocation: the (unswung) bar
anchor time, the bar, and whether the callback returned normally. -/
structure BarEv where
  t : ℚ
  bar : ℕ
  ok : Bool
deriving DecidableEq

/-- Whether a callback invocation returned normally. -/
def exOk : Except String Unit → Bool
  | Except.ok _ => true
  | Except.error _ => false

/-- Body of the `while (nextNoteTime < now + scheduleAheadSec)` loop of
`schedule()`, with an explicit iteration budget (`fuel`).  Each iteration
emits the sixteenth callback at the swing-adjusted time, emits the bar
callback (unswung) when `current16th === 0`, then advances; callback
outcomes are recorded but never interrupt the loop, mirroring the
per-invocation `try { ... } catch {}` of the source. -/
def scheduleFuel (bpm swing ahead now : ℚ) (cbS : ℚ → ℕ → ℕ → Except String Unit)
    (cbB : ℚ → ℕ → Except String Unit) :
    ℕ → SchedState → SchedState × List SixEv × List BarEv
  | 0, s => (s, [], [])
  | fuel + 1, s =>
    if s.nextNoteTime < now + ahead then
      let tSwing := s.nextNoteTime + swingOffset bpm swing s.current16th
      let rest := scheduleFuel bpm swing ahead now cbS cbB fuel (advance bpm s)
      (rest.1,
        ⟨tSwing, s.current16th, s.barCount, exOk (cbS tSwing s.current16th s.barCount)⟩ :: rest.2.1,
        (if s.current16th = 0 then
          [⟨s.nextNoteTime, s.barCount, exOk (cbB s.nextNoteTime s.barCount)⟩]
         else []) ++ rest.2.2)
    else (s, [], [])

/-- Exact number of iterations the `schedule()` while-loop performs from
clock value `now` and pending note time `t` (for positive bpm). -/
def pollIters (bpm ahead now t : ℚ) : ℕ :=
  (⌈(now + ahead - t) / sixteenthDur bpm⌉).toNat

/-- `schedule()`: one poll of the scheduler at clock value `now`.
Runs the while-loop to completion (the budget `pollIters` is exactly the
number of iterations the loop performs; see `schedule_eq`). -/
def schedule (bpm swing ahead now : ℚ) (cbS : ℚ → ℕ → ℕ → Except String Unit)
    (cbB : ℚ → ℕ → Except String Unit) (s : SchedState) :
    SchedState × List SixEv × List BarEv :=
  scheduleFuel bpm swing ahead now cbS cbB (pollIters bpm ahead now s.nextNoteTime) s

/-- `start(startDelaySec)`: `nextNoteTime = now + startDelaySec`,
`current16th = 0`, `barCount = 0`. -/
def startState (now startDelaySec : ℚ) : SchedState :=
  ⟨now + startDelaySec, 0, 0⟩

/-- `setSwing(newSwing)`: clamp to `[0, 0.75]`. -/
def setSwing (newSwing : ℚ) : ℚ :=
  max 0 (min (3 / 4) newSwing)

/-- A sixteenth callback that always returns normally. -/
def cbSOk : ℚ → ℕ → ℕ → Except String Unit := fun _ _ _ => Except.ok ()

/-- A bar callback that always returns normally. -/
def cbBOk : ℚ → ℕ → Except String Unit := fun _ _ => Except.ok ()

/-- A sixteenth callback that always throws. -/
def cbSBoom : ℚ → ℕ → ℕ → Except String Unit := fun _ _ _ => Except.error "boom"

/-- A bar callback that always throws. -/
def cbBBoom : ℚ → ℕ → Except String Unit := fun _ _ => Except.error "boom"

theorem sixteenthDur_eq (bpm : ℚ) : sixteenthDur bpm = 15 / bpm := by
  unfold sixteenthDur secondsPerBeat
  ring

theorem sixteenthDur_pos {bpm : ℚ} (h : 0 < bpm) : 0 < sixteenthDur bpm := by
  rw [sixteenthDur_eq]
  positivity

theorem pollIters_eq_zero {bpm ahead now t : ℚ} (h : 0 < bpm) :
    pollIters bpm ahead now t = 0 ↔ ¬ t < now + ahead := by
  have hd : 0 < sixteenthDur bpm := sixteenthDur_pos h
  unfold pollIters
  rw [Int.toNat_eq_zero, Int.ceil_le]
  push_cast
  rw [div_nonpos_iff]
  constructor
  · rintro (⟨h1, h2⟩ | ⟨h1, h2⟩)
    · exact absurd h2 (not_le.mpr hd)
    · intro hlt
      linarith
  · intro hx
    exact Or.inr ⟨by linarith [not_lt.mp hx], le_of_lt hd⟩

theorem pollIters_advance {bpm ahead now : ℚ} (h : 0 < bpm) (s : SchedState)
    (hc : s.nextNoteTime < now + ahead) :
    pollIters bpm ahead now (advance bpm s).nextNoteTime + 1 =
      pollIters bpm ahead now s.nextNoteTime := by
  have hd : 0 < sixteenthDur bpm := sixteenthDur_pos h
  unfold pollIters advance
  simp only
  have harg : (now + ahead - (s.nextNoteTime + 1 / 4 * secondsPerBeat bpm)) / sixteenthDur bpm
      = (now + ahead - s.nextNoteTime) / sixteenthDur bpm - 1 := by
    have : (1 : ℚ) / 4 * secondsPerBeat bpm = sixteenthDur bpm := rfl
    rw [this]
    field_simp
    ring
  rw [harg]
  have hone : ((now + ahead - s.nextNoteTime) / sixteenthDur bpm - 1)
      = ((now + ahead - s.nextNoteTime) / sixteenthDur bpm - ((1 : ℤ) : ℚ)) := by norm_num
  rw [hone, Int.ceil_sub_int]
  have hpos : 0 < (now + ahead - s.nextNoteTime) / sixteenthDur bpm := by
    apply div_pos _ hd
    linarith
  have hceil : 0 < ⌈(now + ahead - s.nextNoteTime) / sixteenthDur bpm⌉ :=
    Int.ceil_pos.mpr hpos
  omega

/-- The while-loop characterization of `schedule`: for positive bpm one
poll either does nothing (horizon already met) or performs one emission
step and continues as a poll from the advanced state. -/
theorem schedule_eq {bpm : ℚ} (h : 0 < bpm) (swing ahead now : ℚ)
    (cbS : ℚ → ℕ → ℕ → Except String Unit) (cbB : ℚ → ℕ → Except String Unit)
    (s : SchedState) :
    schedule bpm swing ahead now cbS cbB s =
      if s.nextNoteTime < now + ahead then
        (let tSwing := s.nextNoteTime + swingOffset bpm swing s.current16th
         let rest := schedule bpm swing ahead now cbS cbB (advance bpm s)
         (rest.1,
          ⟨tSwing, s.current16th, s.barCount, exOk (cbS tSwing s.current16th s.barCount)⟩ :: rest.2.1,
          (if s.current16th = 0 then
            [⟨s.nextNoteTime, s.barCount, exOk (cbB s.nextNoteTime s.barCount)⟩]
           else []) ++ rest.2.2))
      else (s, [], []) := by
  by_cases hc : s.nextNoteTime < now + ahead
  · rw [if_pos hc]
    unfold schedule
    rw [← pollIters_advance h s hc]
    rw [show scheduleFuel bpm swing ahead now cbS cbB
        (pollIters bpm ahead now (advance bpm s).nextNoteTime + 1) s =
        if s.nextNoteTime < now + ahead then _ else (s, [], []) from rfl]
    rw [if_pos hc]
  · rw [if_neg hc]
    unfold schedule
    rw [(pollIters_eq_zero h).mpr hc]
    rfl

/-- The data of one `onSixteenth` invocation that the scheduler passes to the
callback (time, slot, bar) — everything except the callback's own outcome. -/
def sixKey (e : SixEv) : ℚ × ℕ × ℕ := (e.t, e.slot, e.bar)

/-- The data of one `onBar` invocation (time, bar). -/
def barKey (e : BarEv) : ℚ × ℕ := (e.t, e.bar)

theorem scheduleFuel_lower {bpm : ℚ} (h : 0 < bpm) (swing ahead now : ℚ)
    (cbS : ℚ → ℕ → ℕ → Except String Unit) (cbB : ℚ → ℕ → Except String Unit) :
    ∀ fuel s, pollIters bpm ahead now s.nextNoteTime ≤ fuel →
      now + ahead ≤ (scheduleFuel bpm swing ahead now cbS cbB fuel s).1.nextNoteTime := by
  intro fuel
  induction fuel with
  | zero =>
    intro s hle
    have hz := (pollIters_eq_zero h).mp (Nat.le_zero.mp hle)
    simpa [scheduleFuel] using not_lt.mp hz
  | succ n ih =>
    intro s hle
    by_cases hc : s.nextNoteTime < now + ahead
    · simp only [scheduleFuel, if_pos hc]
      apply ih
      have := pollIters_advance h s hc
      omega
    · simp only [scheduleFuel, if_neg hc]
      exact not_lt.mp hc

/-- At the end of a poll, `nextNoteTime` has met (or passed) the lookahead
horizon `now + ahead`: every slot due within the horizon was emitted. -/
theorem schedule_lower {bpm : ℚ} (h : 0 < bpm) (swing ahead now : ℚ)
    (cbS : ℚ → ℕ → ℕ → Except String Unit) (cbB : ℚ → ℕ → Except String Unit)
    (s : SchedState) :
    now + ahead ≤ (schedule bpm swing ahead now cbS cbB s).1.nextNoteTime :=
  scheduleFuel_lower h swing ahead now cbS cbB _ s le_rfl

theorem scheduleFuel_upper (bpm swing ahead now : ℚ)
    (cbS : ℚ → ℕ → ℕ → Except String Unit) (cbB : ℚ → ℕ → Except String Unit) :
    ∀ fuel s, s.nextNoteTime < now + ahead + sixteenthDur bpm →
      (scheduleFuel bpm swing ahead now cbS cbB fuel s).1.nextNoteTime
        < now + ahead + sixteenthDur bpm := by
  intro fuel
  induction fuel with
  | zero =>
    intro s hs
    simpa [scheduleFuel] using hs
  | succ n ih =>
    intro s hs
    by_cases hc : s.nextNoteTime < now + ahead
    · simp only [scheduleFuel, if_pos hc]
      apply ih
      show s.nextNoteTime + (1 / 4) * secondsPerBeat bpm < now + ahead + sixteenthDur bpm
      have : (1 : ℚ) / 4 * secondsPerBeat bpm = sixteenthDur bpm := rfl
      rw [this]
      linarith
    · simp only [scheduleFuel, if_neg hc]
      exact hs

/-- A poll overshoots the horizon by less than one sixteenth, as long as the
incoming state did. -/
theorem schedule_upper (bpm swing ahead now : ℚ)
    (cbS : ℚ → ℕ → ℕ → Except String Unit) (cbB : ℚ → ℕ → Except String Unit)
    (s : SchedState) (hs : s.nextNoteTime < now + ahead + sixteenthDur bpm) :
    (schedule bpm swing ahead now cbS cbB s).1.nextNoteTime
      < now + ahead + sixteenthDur bpm :=
  scheduleFuel_upper bpm swing ahead now cbS cbB _ s hs

theorem scheduleFuel_cb_agnostic (bpm swing ahead now : ℚ)
    (cbS cbS' : ℚ → ℕ → ℕ → Except String Unit) (cbB cbB' : ℚ → ℕ → Except String Unit) :
    ∀ fuel s,
      (scheduleFuel bpm swing ahead now cbS cbB fuel s).1
        = (scheduleFuel bpm swing ahead now cbS' cbB' fuel s).1
      ∧ (scheduleFuel bpm swing ahead now cbS cbB fuel s).2.1.map sixKey
        = (scheduleFuel bpm swing ahead now cbS' cbB' fuel s).2.1.map sixKey
      ∧ (scheduleFuel bpm swing ahead now cbS cbB fuel s).2.2.map barKey
        = (scheduleFuel bpm swing ahead now cbS' cbB' fuel s).2.2.map barKey := by
  intro fuel
  induction fuel with
  | zero => intro s; exact ⟨rfl, rfl, rfl⟩
  | succ n ih =>
    intro s
    by_cases hc : s.nextNoteTime < now + ahead
    · obtain ⟨ih1, ih2, ih3⟩ := ih (advance bpm s)
      simp only [scheduleFuel, if_pos hc, List.map_cons, List.map_append]
      refine ⟨ih1, by simp [sixKey, ih2], ?_⟩
      by_cases h0 : s.current16th = 0
      · simp [h0, sixKey, barKey, ih3]
      · simp [h0, ih3]
    · simp [scheduleFuel, hc]

theorem scheduleFuel_swing_agnostic (bpm swing swing' ahead now : ℚ)
    (cbS : ℚ → ℕ → ℕ → Except String Unit) (cbB : ℚ → ℕ → Except String Unit) :
    ∀ fuel s,
      (scheduleFuel bpm swing ahead now cbS cbB fuel s).1
        = (scheduleFuel bpm swing' ahead now cbS cbB fuel s).1
      ∧ (scheduleFuel bpm swing ahead now cbS cbB fuel s).2.2
        = (scheduleFuel bpm swing' ahead now cbS cbB fuel s).2.2 := by
  intro fuel
  induction fuel with
  | zero => intro s; exact ⟨rfl, rfl⟩
  | succ n ih =>
    intro s
    by_cases hc : s.nextNoteTime < now + ahead
    · obtain ⟨ih1, ih2⟩ := ih (advance bpm s)
      simp only [scheduleFuel, if_pos hc]
      exact ⟨ih1, by rw [ih2]⟩
    · simp [scheduleFuel, hc]

theorem scheduleFuel_iterate (bpm swing ahead now : ℚ)
    (cbS : ℚ → ℕ → ℕ → Except String Unit) (cbB : ℚ → ℕ → Except String Unit) :
    ∀ fuel s, ∃ k, (scheduleFuel bpm swing ahead now cbS cbB fuel s).1 = (advance bpm)^[k] s := by
  intro fuel
  induction fuel with
  | zero => intro s; exact ⟨0, rfl⟩
  | succ n ih =>
    intro s
    by_cases hc : s.nextNoteTime < now + ahead
    · obtain ⟨k, hk⟩ := ih (advance bpm s)
      refine ⟨k + 1, ?_⟩
      simp only [scheduleFuel, if_pos hc]
      rw [hk, Function.iterate_succ_apply]
    · exact ⟨0, by simp [scheduleFuel, hc]⟩

theorem advance_iterate_startState (bpm now delay : ℚ) :
    ∀ n : ℕ, ((advance bpm)^[n] (startState now delay)).current16th = n % 16
      ∧ ((advance bpm)^[n] (startState now delay)).barCount = n / 16 := by
  intro n
  induction n with
  | zero => exact ⟨rfl, rfl⟩
  | succ n ih =>
    obtain ⟨ih1, ih2⟩ := ih
    rw [Function.iterate_succ_apply']
    constructor
    · show ((advance bpm) _).current16th = (n + 1) % 16
      simp only [advance, ih1]
      omega
    · show ((advance bpm) _).barCount = (n + 1) / 16
      simp only [advance, ih1, ih2]
      by_cases h16 : (n % 16 + 1) % 16 = 0
      · rw [if_pos h16]
        omega
      · rw [if_neg h16]
        omega

/-- Per-role intensity weights of a section (`intensity` in `ARRANGEMENT`). -/
structure Intensity where
  kick : ℚ
  clap : ℚ
  hatsClosed : ℚ
  hatsShuffle : ℚ
  hatsOpen : ℚ
  bass : ℚ
  pad : ℚ
  lead : ℚ
  fx : ℚ
deriving DecidableEq

/-- One entry of `ARRANGEMENT`. -/
structure SectionInfo where
  name : String
  bars : ℕ
  intensity : Intensity
  bassPattern : String
  leadPattern : String
  hatPattern : String
  fxMode : String
deriving DecidableEq

/-- The seven-section arrangement of `Techno.jsx`. -/
def ARRANGEMENT : List SectionInfo :=
  [⟨"Distant Intro", 16, ⟨0.35, 0, 0.18, 0.08, 0, 0, 0.9, 0, 0.65⟩,
    "none", "none", "light", "wash"⟩,
   ⟨"Warm Build", 32, ⟨0.7, 0.25, 0.4, 0.3, 0.15, 0.45, 1.0, 0.25, 0.75⟩,
    "minimal", "tease", "light", "lift"⟩,
   ⟨"Drop One", 32, ⟨1.05, 0.55, 0.9, 0.6, 0.35, 1.1, 0.6, 0.75, 0.85⟩,
    "driving", "sparkle", "wide", "impact"⟩,
   ⟨"Airy Breakdown", 16, ⟨0.4, 0.2, 0.25, 0.12, 0.08, 0.3, 1.0, 0.2, 0.9⟩,
    "minimal", "tease", "light", "dive"⟩,
   ⟨"Second Build", 32, ⟨0.9, 0.45, 0.8, 0.55, 0.3, 0.9, 0.8, 0.6, 0.8⟩,
    "rolling", "sparkle", "tight", "lift"⟩,
   ⟨"Final Drop", 24, ⟨1.1, 0.6, 1.0, 0.75, 0.5, 1.15, 0.7, 0.95, 0.9⟩,
    "anthem", "anthem", "wide", "impact"⟩,
   ⟨"Outro Fade", 16, ⟨0.55, 0.2, 0.35, 0.15, 0.05, 0.35, 0.9, 0.1, 0.7⟩,
    "minimal", "none", "light", "wash"⟩]

/-- `TOTAL_BARS = ARRANGEMENT.reduce((acc, section) => acc + section.bars, 0)`. -/
def TOTAL_BARS : ℕ := ARRANGEMENT.foldl (fun acc sec => acc + sec.bars) 0

/-- Result of `getSectionForBar`: the section (by its index into
`ARRANGEMENT`), the offset of the bar within it, and whether the bar is the
section's first. -/
structure SectionLookup where
  index : ℕ
  offset : ℤ
  isSectionStart : Bool
deriving DecidableEq

/-- The `for` loop of `getSectionForBar`: walk the sections keeping the
cumulative bar cursor; return at the first section whose half-open
`[cursor, cursor + bars)` window contains `bar`.  Falls through (for
`bar >= TOTAL_BARS`) to the final clamp below. -/
def getSectionForBarGo (bar : ℕ) : ℕ → ℕ → List SectionInfo → SectionLookup
  | _, _, [] =>
    ⟨ARRANGEMENT.length - 1,
     ((ARRANGEMENT.getLastD ⟨"", 0, ⟨0, 0, 0, 0, 0, 0, 0, 0, 0⟩, "", "", "", ""⟩).bars : ℤ) - 1,
     false⟩
  | cursor, i, sec :: rest =>
    if bar < cursor + sec.bars then
      ⟨i, (bar : ℤ) - (cursor : ℤ), decide (bar = cursor)⟩
    else
      getSectionForBarGo bar (cursor + sec.bars) (i + 1) rest

/-- `getSectionForBar(bar)` of `Techno.jsx`. -/
def getSectionForBar (bar : ℕ) : SectionLookup :=
  getSectionForBarGo bar 0 0 ARRANGEMENT

/-- Bar index at which section `i` starts (cumulative sum of the preceding
section lengths). -/
def sectionStart (i : ℕ) : ℕ := (((ARRANGEMENT.map SectionInfo.bars).take i)).sum

/-- Length in bars of section `i` of the arrangement. -/
def sectionLen (i : ℕ) : ℕ := (ARRANGEMENT.map SectionInfo.bars).getD i 0

/-- The `bass` voicing of a chord (`root` / `fifth` / `octave`). -/
structure BassVoicing where
  root : String
  fifth : String
  octave : String
deriving DecidableEq

/-- One chord of `CHORD_LIBRARY`: pad and lead voicings plus bass roles. -/
structure Chord where
  pad : List String
  lead : List String
  bass : BassVoicing
deriving DecidableEq

/-- `CHORD_LIBRARY.fm9`. -/
def fm9 : Chord :=
  ⟨["F3", "Ab3", "C4", "Eb4", "G4"],
   ["C5", "Eb5", "F5", "G5", "Bb5", "C6"],
   ⟨"F2", "C3", "F3"⟩⟩

/-- `CHORD_LIBRARY.dbMaj9`. -/
def dbMaj9 : Chord :=
  ⟨["Db3", "F3", "Ab3", "C4", "Eb4"],
   ["Ab4", "C5", "Db5", "F5", "G5", "Ab5"],
   ⟨"Db2", "Ab2", "Db3"⟩⟩

/-- `CHORD_LIBRARY.eb7sus`. -/
def eb7sus : Chord :=
  ⟨["Eb3", "Ab3", "Bb3", "Db4", "F4"],
   ["Bb4", "Db5", "Eb5", "F5", "G5", "Bb5"],
   ⟨"Eb2", "Bb2", "Eb3"⟩⟩

/-- `CHORD_LIBRARY.c7`. -/
def c7 : Chord :=
  ⟨["C3", "E3", "G3", "Bb3", "D4"],
   ["G4", "Bb4", "C5", "D5", "E5", "G5"],
   ⟨"C2", "G2", "C3"⟩⟩

/-- `CHORD_LIBRARY.bbMin9`. -/
def bbMin9 : Chord :=
  ⟨["Bb2", "Db3", "F3", "Ab3", "C4"],
   ["F4", "Ab4", "Bb4", "C5", "Db5", "F5"],
   ⟨"Bb1", "F2", "Bb2"⟩⟩

/-- `CHORD_LIBRARY.abMaj9`. -/
def abMaj9 : Chord :=
  ⟨["Ab2", "C3", "Eb3", "G3", "Bb3"],
   ["Eb4", "G4", "Ab4", "Bb4", "C5", "Eb5"],
   ⟨"Ab1", "Eb2", "Ab2"⟩⟩

/-- `CHORD_SEQUENCE` of `Techno.jsx`. -/
def CHORD_SEQUENCE : List Chord :=
  [fm9, dbMaj9, eb7sus, c7, fm9, abMaj9, bbMin9, c7]

/-- The chord `handleBar` installs for a bar:
`CHORD_SEQUENCE[barCount % CHORD_SEQUENCE.length]`. -/
def chordForBar (barCount : ℕ) : Chord :=
  CHORD_SEQUENCE.get ⟨barCount % CHORD_SEQUENCE.length, Nat.mod_lt _ (by decide)⟩

/-- The pitch-index selection of `triggerLead`:
`Math.min(chord.lead.length - 1, event.idx)`. -/
def leadIdx (chord : Chord) (eventIdx : ℕ) : ℕ :=
  min (chord.lead.length - 1) eventIdx

/-- The note `triggerLead` plays: `chord.lead[leadIdx]`. -/
def leadNote (chord : Chord) (eventIdx : ℕ) : String :=
  chord.lead.getD (leadIdx chord eventIdx) ""

/-- `NOTE_INDEX` of `Techno.jsx`: semitone value of a spelled note name. -/
def NOTE_INDEX : String → Option ℕ
  | "C" => some 0
  | "C#" => some 1
  | "Db" => some 1
  | "D" => some 2
  | "D#" => some 3
  | "Eb" => some 3
  | "E" => some 4
  | "F" => some 5
  | "F#" => some 6
  | "Gb" => some 6
  | "G" => some 7
  | "G#" => some 8
  | "Ab" => some 8
  | "A" => some 9
  | "A#" => some 10
  | "Bb" => some 10
  | "B" => some 11
  | _ => none

/-- `NOTE_NAMES_SHARP` of `Techno.jsx`. -/
def NOTE_NAMES_SHARP : List String :=
  ["C", "C#", "D", "D#", "E", "F"] ++ ["F#", "G", "G#", "A", "A#", "B"]

/-- Test for the `[A-G]` letter class of the note regex. -/
def isNoteLetter (c : Char) : Bool := 'A' ≤ c && c ≤ 'G'

/-- Test for the `\d` class of the note regex. -/
def isDigitChar (c : Char) : Bool := '0' ≤ c && c ≤ '9'

/-- Numeric value of a decimal digit character. -/
def digitVal (c : Char) : ℤ := (c.toNat : ℤ) - 48

/-- The regex match `/^([A-G](?:b|#)?)(-?\d)$/` of `noteToMidi`:
on success gives the note-name capture and the (single-digit, optionally
negated) octave capture as a number. -/
def parseNote (s : String) : Option (String × ℤ) :=
  match s.toList with
  | [l, d] =>
    if isNoteLetter l && isDigitChar d then some (String.mk [l], digitVal d) else none
  | [l, a, d] =>
    if isNoteLetter l && (a == 'b' || a == '#') && isDigitChar d then
      some (String.mk [l, a], digitVal d)
    else if isNoteLetter l && a == '-' && isDigitChar d then
      some (String.mk [l], -(digitVal d))
    else none
  | [l, a, m, d] =>
    if isNoteLetter l && (a == 'b' || a == '#') && m == '-' && isDigitChar d then
      some (String.mk [l, a], -(digitVal d))
    else none
  | _ => none

/-- `noteToMidi(note)`: `60` when the regex does not match, else
`(NOTE_INDEX[name] ?? 0) + (octave + 1) * 12`.  (Inputs are strings; the
octave is an integer by the regex.) -/
def noteToMidi (note : String) : ℤ :=
  match parseNote note with
  | none => 60
  | some (name, octave) => ((NOTE_INDEX name).getD 0 : ℤ) + (octave + 1) * 12

/-- `midiToNote(midi)`: clamp to `[0, 127]`, then
`NOTE_NAMES_SHARP[clamped % 12]` + (floor(clamped / 12) - 1).  (Integer
inputs, so the `Math.round` of the source is the identity.) -/
def midiToNote (midi : ℤ) : String :=
  let clamped := max 0 (min 127 midi)
  let octave := clamped / 12 - 1
  let name := NOTE_NAMES_SHARP.getD (clamped % 12).toNat ""
  name ++ toString octave

/-- `transpose(note, semitones)` of `Techno.jsx`. -/
def transpose (note : String) (semitones : ℤ) : String :=
  midiToNote (noteToMidi note + semitones)

/-- One execution of the terminal-fade guard of `handleBar`
(`if (barCount >= TOTAL_BARS && !fadeScheduledRef.current) { fadeScheduledRef.current = true; ... }`):
given the current flag and the bar, returns the new flag and whether the
fade (master-gain ramp + deferred stop) was scheduled by this call. -/
def fadeStep (fadeScheduled : Bool) (barCount : ℕ) : Bool × Bool :=
  if TOTAL_BARS ≤ barCount ∧ fadeScheduled = false then (true, true)
  else (fadeScheduled, false)

/-- Run the fade guard over a sequence of bar callbacks, collecting the bars
at which a fade was scheduled and the final flag. -/
def fadeRun : Bool → List ℕ → Bool × List ℕ
  | flag, [] => (flag, [])
  | flag, b :: rest =>
    let step := fadeStep flag b
    let next := fadeRun step.1 rest
    (next.1, (if step.2 then [b] else []) ++ next.2)

/-- `MINOR_POOLS` of `App.jsx` (each entry a 4-bar progression of 4-note
chords; the first is `DEFAULT_PROGRESS`). -/
def MINOR_POOLS : List (List (List String)) :=
  [[["A3", "C4", "E4", "G4"],
    ["F3", "A3", "C4", "E4"],
    ["C3", "E3", "G3", "B3"],
    ["G3", "B3", "D4", "F4"]],
   [["A3", "C4", "E4", "G4"],
    ["G3", "B3", "D4", "F4"],
    ["F3", "A3", "C4", "E4"],
    ["E3", "G#3", "B3", "D4"]],
   [["D3", "F3", "A3", "C4"],
    ["G3", "B3", "D4", "F4"],
    ["C3", "E3", "G3", "B3"],
    ["A3", "C4", "E4", "G4"]]]

/-- `CHANGE_EVERY_BARS` of `App.jsx`. -/
def CHANGE_EVERY_BARS : ℕ := 16

/-- The progression selection of `onBar` in `App.jsx`, with the
`Math.random()` draw `r` in `[0, 1)` made explicit:
`idx = Math.floor(r * MINOR_POOLS.length)`, and on a collision with the
previous index (when the pool has more than one entry) the deterministic
fallback `idx = (idx + 1) % MINOR_POOLS.length`. -/
def pickNextProg (prev : ℕ) (r : ℚ) : ℕ :=
  let idx := (⌊r * (MINOR_POOLS.length : ℚ)⌋).toNat
  if 1 < MINOR_POOLS.length ∧ idx = prev then (idx + 1) % MINOR_POOLS.length
  else idx

/-- Modelled from the spec: "pick a new pool entry uniformly at random,
excluding immediate repetition of the previous choice (reroll once if a
repeat is drawn and more than one option exists)" — with the reroll drawn
uniformly among the remaining options via a second random draw `r2`.
Stated for comparison with `pickNextProg`, the selection the source
actually implements. -/
def pickNextProgRerollSpec (prev : ℕ) (r r2 : ℚ) : ℕ :=
  let idx := (⌊r * (MINOR_POOLS.length : ℚ)⌋).toNat
  if 1 < MINOR_POOLS.length ∧ idx = prev then
    ((List.range MINOR_POOLS.length).filter (fun j => j ≠ prev)).getD
      ((⌊r2 * ((MINOR_POOLS.length : ℚ) - 1)⌋).toNat) prev
  else idx

/-- A sequence of polls: pairs each poll's clock reading with the scheduler
state at the end of that poll. -/
def pollStates (bpm swing ahead : ℚ) (cbS : ℚ → ℕ → ℕ → Except String Unit)
    (cbB : ℚ → ℕ → Except String Unit) : SchedState → List ℚ → List (ℚ × SchedState)
  | _, [] => []
  | s, now :: rest =>
    (now, (schedule bpm swing ahead now cbS cbB s).1)
      :: pollStates bpm swing ahead cbS cbB (schedule bpm swing ahead now cbS cbB s).1 rest

theorem pollStates_bounds {bpm : ℚ} (h : 0 < bpm) (swing ahead : ℚ)
    (cbS : ℚ → ℕ → ℕ → Except String Unit) (cbB : ℚ → ℕ → Except String Unit) :
    ∀ (nows : List ℚ) (now0 : ℚ) (s : SchedState),
      List.Chain (fun a b => a ≤ b) now0 nows →
      s.nextNoteTime < now0 + ahead + sixteenthDur bpm →
      ∀ p ∈ pollStates bpm swing ahead cbS cbB s nows,
        p.1 + ahead ≤ p.2.nextNoteTime ∧ p.2.nextNoteTime < p.1 + ahead + sixteenthDur bpm := by
  intro nows
  induction nows with
  | nil =>
    intro now0 s _ _ p hp
    simp [pollStates] at hp
  | cons now rest ih =>
    intro now0 s hchain hs p hp
    rw [List.chain_cons] at hchain
    obtain ⟨hle, hchain'⟩ := hchain
    have hs' : s.nextNoteTime < now + ahead + sixteenthDur bpm := by linarith
    have hupper := schedule_upper bpm swing ahead now cbS cbB s hs'
    have hlower := schedule_lower h swing ahead now cbS cbB s
    simp only [pollStates, List.mem_cons] at hp
    rcases hp with rfl | hp
    · exact ⟨by simpa using hlower, by simpa using hupper⟩
    · exact ih now _ hchain' hupper p hp

theorem firstPollOk_eval :
    schedule 120 0 (1/5) (1/40) cbSOk cbBOk (startState 0 (1/20))
      = (⟨3/10, 2, 0⟩, [⟨1/20, 0, 0, true⟩, ⟨7/40, 1, 0, true⟩], [⟨1/20, 0, true⟩]) := by
  have hit : pollIters 120 (1/5) (1/40) (1/20) = 2 := by
    unfold pollIters sixteenthDur secondsPerBeat
    norm_num
    rw [show ⌈(7:ℚ)/5⌉ = 2 by norm_num [Int.ceil_eq_iff]]
    rfl
  unfold schedule
  norm_num [startState]
  rw [hit]
  norm_num [scheduleFuel, advance, swingOffset, sixteenthDur, secondsPerBeat, exOk, cbSOk, cbBOk]

theorem firstPollBoom_eval :
    schedule 120 0 (1/5) (1/40) cbSBoom cbBOk (startState 0 (1/20))
      = (⟨3/10, 2, 0⟩, [⟨1/20, 0, 0, false⟩, ⟨7/40, 1, 0, false⟩], [⟨1/20, 0, true⟩]) := by
  have hit : pollIters 120 (1/5) (1/40) (1/20) = 2 := by
    unfold pollIters sixteenthDur secondsPerBeat
    norm_num
    rw [show ⌈(7:ℚ)/5⌉ = 2 by norm_num [Int.ceil_eq_iff]]
    rfl
  unfold schedule
  norm_num [startState]
  rw [hit]
  norm_num [scheduleFuel, advance, swingOffset, sixteenthDur, secondsPerBeat, exOk, cbSBoom, cbBOk]

theorem secondPollBoom_eval :
    schedule 120 0 (1/5) (3/20) cbSBoom cbBOk ⟨3/10, 2, 0⟩
      = (⟨17/40, 3, 0⟩, [⟨3/10, 2, 0, false⟩], []) := by
  have hit : pollIters 120 (1/5) (3/20) (3/10) = 1 := by
    unfold pollIters sixteenthDur secondsPerBeat
    norm_num
    rw [show ⌈(2:ℚ)/5⌉ = 1 by norm_num [Int.ceil_eq_iff]]
    rfl
  unfold schedule
  norm_num
  rw [hit]
  norm_num [scheduleFuel, advance, swingOffset, sixteenthDur, secondsPerBeat, exOk, cbSBoom, cbBOk]

theorem swingPoll_eval :
    schedule 120 (1/5) (1/5) (203/20) cbSOk cbBOk (startState 10 (1/20))
      = (⟨417/40, 3, 0⟩,
         [⟨201/20, 0, 0, true⟩, ⟨407/40, 1, 0, true⟩, ⟨413/40, 2, 0, true⟩],
         [⟨201/20, 0, true⟩]) := by
  have hit : pollIters 120 (1/5) (203/20) (201/20) = 3 := by
    unfold pollIters sixteenthDur secondsPerBeat
    norm_num
    rw [show ⌈(12:ℚ)/5⌉ = 3 by norm_num [Int.ceil_eq_iff]]
    rfl
  unfold schedule
  norm_num [startState]
  rw [hit]
  norm_num [scheduleFuel, advance, swingOffset, sixteenthDur, secondsPerBeat, exOk, cbSOk, cbBOk]

/-- C2 is false as stated: in a run at bpm 120 with `ahead = 0.2`,
`start(0.05)` issued at clock 0 and the first poll at clock 0.025, the end
of that poll leaves `nextEventTime - now = 0.3 - 0.025 = 0.275`, which
exceeds `scheduleAheadSeconds = 0.2`. -/
theorem scheduler_horizon_cex :
    ¬ ((schedule 120 0 (1/5) (1/40) cbSOk cbBOk (startState 0 (1/20))).1.nextNoteTime
        - 1/40 ≤ 1/5) := by
  rw [firstPollOk_eval]
  norm_num

/-- C2 (corrected): at the end of every poll of a run (monotone clock,
start delay below `ahead + sixteenthDur`), `nextEventTime - now` lies in
`[scheduleAheadSeconds, scheduleAheadSeconds + sixteenthDuration)`: it never
goes below the horizon (no due slot is ever left unscheduled, and the
difference is never negative), but it always meets or exceeds
`scheduleAheadSeconds` — by less than one sixteenth — rather than staying
below it. -/
theorem scheduler_horizon_bounds (bpm swing ahead now0 delay : ℚ)
    (cbS : ℚ → ℕ → ℕ → Except String Unit) (cbB : ℚ → ℕ → Except String Unit)
    (nows : List ℚ) (hbpm : 0 < bpm)
    (hchain : List.Chain (fun a b => a ≤ b) now0 nows)
    (hdelay : delay < ahead + sixteenthDur bpm) :
    ∀ p ∈ pollStates bpm swing ahead cbS cbB (startState now0 delay) nows,
      p.1 + ahead ≤ p.2.nextNoteTime
      ∧ p.2.nextNoteTime < p.1 + ahead + sixteenthDur bpm := by
  apply pollStates_bounds hbpm swing ahead cbS cbB nows now0 _ hchain
  show (startState now0 delay).nextNoteTime < now0 + ahead + sixteenthDur bpm
  simp only [startState]
  linarith

/-- Witness for `scheduler_horizon_bounds`: a concrete two-poll run at
bpm 120, swing 0, ahead 0.2, `start(0.05)` at clock 0, polls at clocks
0.025 and 0.15. -/
theorem scheduler_horizon_bounds_witness :
    (0:ℚ) < 120
    ∧ List.Chain (fun a b : ℚ => a ≤ b) 0 [1/40, 3/20]
    ∧ (1:ℚ)/20 < 1/5 + sixteenthDur 120
    ∧ ∀ p ∈ pollStates 120 0 (1/5) cbSOk cbBOk (startState 0 (1/20)) [1/40, 3/20],
        p.1 + 1/5 ≤ p.2.nextNoteTime
        ∧ p.2.nextNoteTime < p.1 + 1/5 + sixteenthDur 120 := by
  have hch : List.Chain (fun a b : ℚ => a ≤ b) 0 [1/40, 3/20] :=
    List.Chain.cons (by norm_num) (List.Chain.cons (by norm_num) List.Chain.nil)
  exact ⟨by norm_num, hch, by norm_num [sixteenthDur, secondsPerBeat],
    scheduler_horizon_bounds 120 0 (1/5) 0 (1/20) cbSOk cbBOk [1/40, 3/20]
      (by norm_num) hch (by norm_num [sixteenthDur, secondsPerBeat])⟩

/-- C4 (confirmed): the swing offset equals `swing * sixteenthDur` exactly
on slots with `slot % 4 == 2` and is zero elsewhere; the scheduler state
and the bar-callback stream are entirely independent of the swing amount
(bar anchors are never swing-adjusted); `setSwing` clamps to `[0, 0.75]`
(and keeps in-range values such as 0.2); and in the worked example
(bpm 120, swing 0.2, start at 10.05) the slot-2 sixteenth callback of
bar 0 fires at `10.05 + 2*0.125 + 0.2*0.125 = 10.325 = 413/40` while the
bar callback stays at 10.05. -/
theorem swing_semantics :
    (∀ (bpm swing : ℚ) (slot : ℕ),
      swingOffset bpm swing slot = if slot % 4 = 2 then swing * sixteenthDur bpm else 0)
    ∧ (∀ (bpm swing swing' ahead now : ℚ)
        (cbS : ℚ → ℕ → ℕ → Except String Unit) (cbB : ℚ → ℕ → Except String Unit)
        (s : SchedState),
        (schedule bpm swing ahead now cbS cbB s).1 = (schedule bpm swing' ahead now cbS cbB s).1
        ∧ (schedule bpm swing ahead now cbS cbB s).2.2
            = (schedule bpm swing' ahead now cbS cbB s).2.2)
    ∧ (∀ x : ℚ, 0 ≤ setSwing x ∧ setSwing x ≤ 3/4)
    ∧ setSwing (1/5) = 1/5
    ∧ (schedule 120 (1/5) (1/5) (203/20) cbSOk cbBOk (startState 10 (1/20))).2.1.map sixKey
        = [(201/20, 0, 0), (407/40, 1, 0), (413/40, 2, 0)]
    ∧ (schedule 120 (1/5) (1/5) (203/20) cbSOk cbBOk (startState 10 (1/20))).2.2.map barKey
        = [(201/20, 0)] := by
  refine ⟨?_, ?_, ?_, ?_, ?_, ?_⟩
  · intro bpm swing slot
    unfold swingOffset
    by_cases hsw : swing = 0
    · subst hsw
      simp
    · rw [if_neg hsw]
  · intro bpm swing swing' ahead now cbS cbB s
    unfold schedule
    exact scheduleFuel_swing_agnostic bpm swing swing' ahead now cbS cbB _ s
  · intro x
    unfold setSwing
    constructor
    · exact le_max_left 0 _
    · exact max_le (by norm_num) (min_le_left _ _)
  · norm_num [setSwing, min_def, max_def]
  · rw [swingPoll_eval]
    simp [sixKey]
  · rw [swingPoll_eval]
    simp [barKey]

/-- C5 (confirmed): from `start()` the n-th advance leaves
`current16th = n % 16` (hence always in `[0,16)`, cycling 0..15 with no
skip or repeat) and `barCount = n / 16` (hence `barCount` gains exactly 1
per 16 advances); a single advance steps the slot by 1 mod 16 and bumps
`barCount` exactly when the slot wraps to 0; and every poll of the
scheduler only ever moves the state by some number of advances, so every
state reachable from `start()` is of this form. -/
theorem slot_cycle_barCount :
    (∀ (bpm now delay : ℚ) (n : ℕ),
      ((advance bpm)^[n] (startState now delay)).current16th = n % 16
      ∧ ((advance bpm)^[n] (startState now delay)).current16th < 16
      ∧ ((advance bpm)^[n] (startState now delay)).barCount = n / 16)
    ∧ (∀ (bpm : ℚ) (s : SchedState),
      (advance bpm s).current16th = (s.current16th + 1) % 16
      ∧ ((advance bpm s).barCount = s.barCount + 1 ↔ (advance bpm s).current16th = 0)
      ∧ ((advance bpm s).current16th ≠ 0 → (advance bpm s).barCount = s.barCount))
    ∧ (∀ (bpm swing ahead now : ℚ)
        (cbS : ℚ → ℕ → ℕ → Except String Unit) (cbB : ℚ → ℕ → Except String Unit)
        (s : SchedState),
        ∃ k, (schedule bpm swing ahead now cbS cbB s).1 = (advance bpm)^[k] s) := by
  refine ⟨?_, ?_, ?_⟩
  · intro bpm now delay n
    obtain ⟨h1, h2⟩ := advance_iterate_startState bpm now delay n
    exact ⟨h1, by omega, h2⟩
  · intro bpm s
    refine ⟨rfl, ?_, ?_⟩
    · show s.barCount + (if (s.current16th + 1) % 16 = 0 then 1 else 0) = s.barCount + 1
        ↔ (s.current16th + 1) % 16 = 0
      by_cases h16 : (s.current16th + 1) % 16 = 0
      · simp [h16]
      · simp [h16]
    · intro hne
      show s.barCount + (if (s.current16th + 1) % 16 = 0 then 1 else 0) = s.barCount
      have : ¬ (s.current16th + 1) % 16 = 0 := hne
      simp [this]
  · intro bpm swing ahead now cbS cbB s
    unfold schedule
    exact scheduleFuel_iterate bpm swing ahead now cbS cbB _ s

/-- C9 (confirmed): callback outcomes never influence the scheduler — the
post-poll state and the (time, slot, bar) streams of both callback kinds
are identical whatever the handlers do (each invocation's exception is
swallowed in isolation); concretely, with a sixteenth handler that always
throws, the first poll of a run still delivers the bar callback of the
same slot-0 tick (successfully), still advances the state past both due
slots, and the following poll continues emitting the next slot. -/
theorem scheduler_callback_fault_isolation :
    (∀ (bpm swing ahead now : ℚ)
      (cbS cbS' : ℚ → ℕ → ℕ → Except String Unit) (cbB cbB' : ℚ → ℕ → Except String Unit)
      (s : SchedState),
      (schedule bpm swing ahead now cbS cbB s).1 = (schedule bpm swing ahead now cbS' cbB' s).1
      ∧ (schedule bpm swing ahead now cbS cbB s).2.1.map sixKey
          = (schedule bpm swing ahead now cbS' cbB' s).2.1.map sixKey
      ∧ (schedule bpm swing ahead now cbS cbB s).2.2.map barKey
          = (schedule bpm swing ahead now cbS' cbB' s).2.2.map barKey)
    ∧ (schedule 120 0 (1/5) (1/40) cbSBoom cbBOk (startState 0 (1/20))).2.2
        = [⟨1/20, 0, true⟩]
    ∧ (schedule 120 0 (1/5) (1/40) cbSBoom cbBOk (startState 0 (1/20))).2.1.map sixKey
        = [(1/20, 0, 0), (7/40, 1, 0)]
    ∧ (schedule 120 0 (1/5) (1/40) cbSBoom cbBOk (startState 0 (1/20))).2.1.map SixEv.ok
        = [false, false]
    ∧ (schedule 120 0 (1/5) (1/40) cbSBoom cbBOk (startState 0 (1/20))).1 = ⟨3/10, 2, 0⟩
    ∧ (schedule 120 0 (1/5) (3/20) cbSBoom cbBOk ⟨3/10, 2, 0⟩).2.1.map sixKey
        = [(3/10, 2, 0)]
    ∧ (schedule 120 0 (1/5) (3/20) cbSBoom cbBOk ⟨3/10, 2, 0⟩).1 = ⟨17/40, 3, 0⟩ := by
  refine ⟨?_, ?_, ?_, ?_, ?_, ?_, ?_⟩
  · intro bpm swing ahead now cbS cbS' cbB cbB' s
    unfold schedule
    exact scheduleFuel_cb_agnostic bpm swing ahead now cbS cbS' cbB cbB' _ s
  · rw [firstPollBoom_eval]
  · rw [firstPollBoom_eval]
    simp [sixKey]
  · rw [firstPollBoom_eval]
    simp
  · rw [firstPollBoom_eval]
  · rw [secondPollBoom_eval]
    simp [sixKey]
  · rw [secondPollBoom_eval]

/-- The specification of one `resolve(bar)` call: the returned section
index is in range, its half-open window `[start, start+len)` contains the
bar, offset and section-start flag are as described, and that window is
the unique one containing the bar (so the windows partition
`[0, TOTAL_BARS)`). -/
abbrev resolveSpecAt (bar : ℕ) : Prop :=
  (getSectionForBar bar).index < ARRANGEMENT.length
  ∧ sectionStart (getSectionForBar bar).index ≤ bar
  ∧ bar < sectionStart (getSectionForBar bar).index + sectionLen (getSectionForBar bar).index
  ∧ (getSectionForBar bar).offset = (bar : ℤ) - (sectionStart (getSectionForBar bar).index : ℤ)
  ∧ ((getSectionForBar bar).isSectionStart = true ↔ bar = sectionStart (getSectionForBar bar).index)
  ∧ ∃ i : Fin ARRANGEMENT.length,
      (sectionStart i ≤ bar ∧ bar < sectionStart i + sectionLen i)
      ∧ ∀ j : Fin ARRANGEMENT.length,
          (sectionStart j ≤ bar ∧ bar < sectionStart j + sectionLen j) → j = i

set_option maxRecDepth 100000 in
/-- C3 (confirmed): for every bar in `[0, totalBars)` the resolver returns
the unique section whose half-open interval contains the bar, with
`offset = bar - start` and `isSectionStart = (bar == start)`; the intervals
partition `[0, 168)`; and the three quoted examples hold:
`resolve(0) = (section0, 0, true)`, `resolve(16) = (section1, 0, true)`,
`resolve(167) = (section6, 15, false)`. -/
theorem resolver_partition :
    (∀ bar : ℕ, bar < TOTAL_BARS → resolveSpecAt bar)
    ∧ getSectionForBar 0 = ⟨0, 0, true⟩
    ∧ getSectionForBar 16 = ⟨1, 0, true⟩
    ∧ getSectionForBar 167 = ⟨6, 15, false⟩ := by
  refine ⟨?_, by decide, by decide, by decide⟩
  have h : TOTAL_BARS = 168 := by decide
  rw [h]
  decide

/-- Witness for `resolver_partition` at bar 167. -/
theorem resolver_partition_witness : (167 : ℕ) < TOTAL_BARS ∧ resolveSpecAt 167 :=
  ⟨by decide, resolver_partition.1 167 (by decide)⟩

theorem fadeRun_append (flag : Bool) (l1 l2 : List ℕ) :
    fadeRun flag (l1 ++ l2)
      = ((fadeRun (fadeRun flag l1).1 l2).1,
         (fadeRun flag l1).2 ++ (fadeRun (fadeRun flag l1).1 l2).2) := by
  induction l1 generalizing flag with
  | nil => simp [fadeRun]
  | cons b rest ih =>
    simp only [List.cons_append, fadeRun, List.append_eq]
    rw [ih]
    simp [List.append_assoc]

theorem fadeRun_range (N : ℕ) :
    fadeRun false (List.range N)
      = ((if TOTAL_BARS < N then true else false),
         if TOTAL_BARS < N then [TOTAL_BARS] else []) := by
  induction N with
  | zero => simp [fadeRun]
  | succ n ih =>
    rw [List.range_succ, fadeRun_append, ih]
    by_cases h1 : TOTAL_BARS < n
    · have h2 : TOTAL_BARS < n + 1 := by omega
      have hn : TOTAL_BARS ≤ n := by omega
      simp [h1, h2, fadeRun, fadeStep, hn]
    · by_cases h0 : TOTAL_BARS ≤ n
      · have hn : n = TOTAL_BARS := by omega
        have h2 : TOTAL_BARS < n + 1 := by omega
        simp [h1, h2, fadeRun, fadeStep, hn]
      · have h2 : ¬ TOTAL_BARS < n + 1 := by omega
        simp [h1, h2, fadeRun, fadeStep, h0]

theorem getSectionForBarGo_ge (bar : ℕ) :
    ∀ (l : List SectionInfo) (cursor i : ℕ),
      cursor + (l.map SectionInfo.bars).sum ≤ bar →
      getSectionForBarGo bar cursor i l = getSectionForBarGo bar 0 0 [] := by
  intro l
  induction l with
  | nil =>
    intro cursor i _
    rfl
  | cons sec rest ih =>
    intro cursor i h
    simp only [List.map_cons, List.sum_cons] at h
    simp only [getSectionForBarGo]
    rw [if_neg (by omega)]
    exact ih _ _ (by omega)

/-- C6 (confirmed): over the bar callbacks `0, 1, ..., N-1` of one run
(fade flag initially false), the fade transition is scheduled exactly at
bar `TOTAL_BARS` — once, and never again afterwards — and not at all if
the run never reaches that bar; and for every `bar >= TOTAL_BARS` the
resolver clamps to the final section (index 6) with
`offset = 16 - 1 = 15` and `isSectionStart = false`, in particular at
bar 168. -/
theorem fade_once_and_clamp :
    (∀ N : ℕ, (fadeRun false (List.range N)).2
        = if TOTAL_BARS < N then [TOTAL_BARS] else [])
    ∧ (∀ bar : ℕ, TOTAL_BARS ≤ bar → getSectionForBar bar = ⟨6, 15, false⟩)
    ∧ getSectionForBar 168 = ⟨6, 15, false⟩ := by
  refine ⟨?_, ?_, by decide⟩
  · intro N
    rw [fadeRun_range]
  · intro bar h
    have h168 : 168 ≤ bar := by
      have ht : TOTAL_BARS = 168 := by decide
      omega
    unfold getSectionForBar
    rw [getSectionForBarGo_ge bar ARRANGEMENT 0 0
      (by
        have hsum : (ARRANGEMENT.map SectionInfo.bars).sum = 168 := by decide
        omega)]
    rw [show getSectionForBarGo bar 0 0 [] = (⟨6, 15, false⟩ : SectionLookup) from rfl]

/-- Witness for `fade_once_and_clamp` at bar 200. -/
theorem fade_once_and_clamp_witness :
    TOTAL_BARS ≤ 200 ∧ getSectionForBar 200 = ⟨6, 15, false⟩ :=
  ⟨by decide, fade_once_and_clamp.2.1 200 (by decide)⟩

/-- C7 is false as stated at its own example: with the length-8 chord
sequence, the chord at bar 8 does equal the chord at bar 0, but bar 8 lies
in the same (first, 16-bar-long) section as bar 0 — the section does not
differ. -/
theorem chord_section_cex :
    chordForBar 8 = chordForBar 0
    ∧ (getSectionForBar 8).index = (getSectionForBar 0).index
    ∧ (getSectionForBar 8).index = 0 :=
  ⟨by decide, by decide, by decide⟩

/-- C7 (corrected): the chord for bar `b` is
`CHORD_SEQUENCE[b mod length]`, depending on nothing but `b mod 8` (in
particular not on the section); the chord at bar 8 equals the chord at
bar 0, but bar 8 lies in the same first section as bar 0 (the first
section spans 16 bars); the intended phase drift does appear at bar 16,
whose chord equals bar 0's while its section differs. -/
theorem chord_mod_independent :
    (∀ b b' : ℕ, b % CHORD_SEQUENCE.length = b' % CHORD_SEQUENCE.length →
      chordForBar b = chordForBar b')
    ∧ chordForBar 8 = chordForBar 0
    ∧ (getSectionForBar 8).index = (getSectionForBar 0).index
    ∧ chordForBar 16 = chordForBar 0
    ∧ (getSectionForBar 16).index ≠ (getSectionForBar 0).index := by
  refine ⟨?_, by decide, by decide, by decide, by decide⟩
  intro b b' hmod
  unfold chordForBar
  exact congrArg CHORD_SEQUENCE.get (Fin.ext hmod)

/-- Witness for `chord_mod_independent` at bars 8 and 0. -/
theorem chord_mod_independent_witness :
    (8 : ℕ) % CHORD_SEQUENCE.length = 0 % CHORD_SEQUENCE.length
    ∧ chordForBar 8 = chordForBar 0 :=
  ⟨by decide, chord_mod_independent.1 8 0 (by decide)⟩

/-- C1 is false as stated: for the `fm9` chord (lead voicing of length 6)
and a pattern event requesting pitch index 7 (not a valid position), the
code resolves to the clamped last element `C6`, not to the modulo-wrapped
element `lead[7 mod 6] = Eb5`. -/
theorem lead_clamp_cex :
    leadNote fm9 7 = "C6"
    ∧ fm9.lead.getD (7 % fm9.lead.length) "" = "Eb5"
    ∧ leadNote fm9 7 ≠ fm9.lead.getD (7 % fm9.lead.length) "" :=
  ⟨by decide, by decide, by decide⟩

theorem chordSequence_lead_len : ∀ chord ∈ CHORD_SEQUENCE, chord.lead.length = 6 := by
  decide

/-- C1 (corrected): for every chord of the sequence and every pattern
event pitch index, `triggerLead` resolves the pitch index by clamping to
`min(index, length - 1)` — the identity for in-range indices, the last
index for out-of-range ones — so the access is always within bounds
(never throws) and the played note is always one of the chord's lead
voicing. -/
theorem lead_resolution_clamps (chord : Chord) (hc : chord ∈ CHORD_SEQUENCE) (i : ℕ) :
    leadIdx chord i < chord.lead.length
    ∧ (i < chord.lead.length → leadIdx chord i = i)
    ∧ (chord.lead.length ≤ i → leadIdx chord i = chord.lead.length - 1)
    ∧ leadNote chord i ∈ chord.lead := by
  have h6 : chord.lead.length = 6 := chordSequence_lead_len chord hc
  have hlt : leadIdx chord i < chord.lead.length := by
    unfold leadIdx
    omega
  refine ⟨hlt, ?_, ?_, ?_⟩
  · intro hi
    unfold leadIdx
    omega
  · intro hi
    unfold leadIdx
    omega
  · unfold leadNote
    rw [List.getD_eq_getElem chord.lead "" hlt]
    exact List.getElem_mem hlt

/-- Witness for `lead_resolution_clamps`: the fm9 chord with pitch index 7. -/
theorem lead_resolution_clamps_witness :
    fm9 ∈ CHORD_SEQUENCE
    ∧ (leadIdx fm9 7 < fm9.lead.length
       ∧ (7 < fm9.lead.length → leadIdx fm9 7 = 7)
       ∧ (fm9.lead.length ≤ 7 → leadIdx fm9 7 = fm9.lead.length - 1)
       ∧ leadNote fm9 7 ∈ fm9.lead) :=
  ⟨by decide, lead_resolution_clamps fm9 (by decide) 7⟩

/-- C8 is false as stated: when the uniform draw collides with the
previous index (here prev = 0, draw `r = 0` giving index 0), the code
deterministically selects the next index cyclically (index 1) — it never
rerolls among the remaining options, which per the spec's mechanism could
select index 2 (e.g. with a second draw of 0.75); accordingly, over the
three uniform draw cells the code selects index 1 twice and index 2 once,
which is not a uniform choice among the non-repeating options. -/
theorem pool_reroll_cex :
    pickNextProg 0 0 = 1
    ∧ pickNextProgRerollSpec 0 0 (3/4) = 2
    ∧ ((List.range 3).map (fun k => pickNextProg 0 ((k : ℚ) / 3))).count 1 = 2
    ∧ ((List.range 3).map (fun k => pickNextProg 0 ((k : ℚ) / 3))).count 2 = 1 := by
  refine ⟨?_, ?_, ?_, ?_⟩
  · norm_num [pickNextProg, MINOR_POOLS]
  · norm_num [pickNextProgRerollSpec, MINOR_POOLS]
    decide
  · norm_num [List.range_succ, pickNextProg, MINOR_POOLS]
    decide
  · norm_num [List.range_succ, pickNextProg, MINOR_POOLS]
    decide

/-- C8 (corrected): at each progression-change bar the new pool index is
the uniform draw `floor(r * len)` whenever that differs from the previous
index; on a collision (pool size > 1) the code deterministically replaces
it with `(prev + 1) % len` — a single cyclic step, not a uniform reroll
among the remaining options — so the selected index is always in range
and never equals the previous index. -/
theorem pool_pick_no_repeat (prev : ℕ) (hp : prev < MINOR_POOLS.length)
    (r : ℚ) (h0 : 0 ≤ r) (h1 : r < 1) :
    pickNextProg prev r < MINOR_POOLS.length
    ∧ pickNextProg prev r ≠ prev
    ∧ ((⌊r * (MINOR_POOLS.length : ℚ)⌋).toNat ≠ prev →
        pickNextProg prev r = (⌊r * (MINOR_POOLS.length : ℚ)⌋).toNat)
    ∧ ((⌊r * (MINOR_POOLS.length : ℚ)⌋).toNat = prev →
        pickNextProg prev r = (prev + 1) % MINOR_POOLS.length) := by
  have hlen : MINOR_POOLS.length = 3 := rfl
  unfold pickNextProg
  rw [hlen] at hp ⊢
  have hf0 : 0 ≤ ⌊r * ((3 : ℕ) : ℚ)⌋ := by
    apply Int.floor_nonneg.mpr
    positivity
  have hf3 : ⌊r * ((3 : ℕ) : ℚ)⌋ < 3 := by
    apply Int.floor_lt.mpr
    push_cast
    linarith
  by_cases hcol : (⌊r * ((3 : ℕ) : ℚ)⌋).toNat = prev
  · rw [if_pos (show (1 : ℕ) < 3 ∧ (⌊r * ((3 : ℕ) : ℚ)⌋).toNat = prev from ⟨by norm_num, hcol⟩)]
    refine ⟨by omega, by omega, ?_, ?_⟩
    · intro hne
      exact absurd hcol hne
    · intro _
      rw [hcol]
  · rw [if_neg (show ¬ ((1 : ℕ) < 3 ∧ (⌊r * ((3 : ℕ) : ℚ)⌋).toNat = prev) from
      fun hand => hcol hand.2)]
    refine ⟨by omega, hcol, fun _ => rfl, ?_⟩
    intro heq
    exact absurd heq hcol

/-- Witness for `pool_pick_no_repeat`: previous index 0, draw 0.5. -/
theorem pool_pick_no_repeat_witness :
    (0 : ℕ) < MINOR_POOLS.length
    ∧ ((0 : ℚ) ≤ 1/2 ∧ (1 : ℚ)/2 < 1)
    ∧ (pickNextProg 0 (1/2) < MINOR_POOLS.length
       ∧ pickNextProg 0 (1/2) ≠ 0
       ∧ ((⌊(1/2 : ℚ) * (MINOR_POOLS.length : ℚ)⌋).toNat ≠ 0 →
           pickNextProg 0 (1/2) = (⌊(1/2 : ℚ) * (MINOR_POOLS.length : ℚ)⌋).toNat)
       ∧ ((⌊(1/2 : ℚ) * (MINOR_POOLS.length : ℚ)⌋).toNat = 0 →
           pickNextProg 0 (1/2) = (0 + 1) % MINOR_POOLS.length)) :=
  ⟨by decide, ⟨by norm_num, by norm_num⟩,
   pool_pick_no_repeat 0 (by decide) (1/2) (by norm_num) (by norm_num)⟩

set_option maxRecDepth 100000 in
/-- C10 (confirmed): `noteToMidi (midiToNote m) = m` for every MIDI number
`m` in `[0, 127]`; consequently `transpose` shifts any note whose MIDI
value plus the requested offset stays within `[0, 127]` by exactly that
many semitones; and `noteToMidi` is total, returning 60 for every string
the note regex does not match. -/
theorem note_midi_roundtrip :
    (∀ m : ℕ, m < 128 → noteToMidi (midiToNote (m : ℤ)) = (m : ℤ))
    ∧ (∀ (note : String) (k : ℤ),
        0 ≤ noteToMidi note + k → noteToMidi note + k ≤ 127 →
        noteToMidi (transpose note k) = noteToMidi note + k)
    ∧ (∀ s : String, parseNote s = none → noteToMidi s = 60) := by
  have base : ∀ m : ℕ, m < 128 → noteToMidi (midiToNote (m : ℤ)) = (m : ℤ) := by decide
  refine ⟨base, ?_, ?_⟩
  · intro note k hlo hhi
    unfold transpose
    have hm : noteToMidi note + k = (((noteToMidi note + k).toNat : ℕ) : ℤ) :=
      (Int.toNat_of_nonneg hlo).symm
    rw [hm]
    apply base
    omega
  · intro s hp
    unfold noteToMidi
    rw [hp]

/-- Witness for `note_midi_roundtrip`: MIDI 60, note C4 shifted by 7, and
a non-note string. -/
theorem note_midi_roundtrip_witness :
    noteToMidi (midiToNote ((60 : ℕ) : ℤ)) = ((60 : ℕ) : ℤ)
    ∧ (0 ≤ noteToMidi "C4" + 7 ∧ noteToMidi "C4" + 7 ≤ 127
       ∧ noteToMidi (transpose "C4" 7) = noteToMidi "C4" + 7)
    ∧ (parseNote "nope" = none ∧ noteToMidi "nope" = 60) :=
  ⟨note_midi_roundtrip.1 60 (by decide),
   ⟨by decide, by decide, note_midi_roundtrip.2.1 "C4" 7 (by decide) (by decide)⟩,
   ⟨by decide, note_midi_roundtrip.2.2 "nope" (by decide)⟩⟩

/-- Witness for `slot_cycle_barCount`: a state at slot 3, where the next
advance does not wrap and leaves `barCount` unchanged. -/
theorem slot_cycle_barCount_witness :
    (advance 120 ⟨0, 3, 0⟩).current16th ≠ 0
    ∧ (advance 120 ⟨0, 3, 0⟩).barCount = (⟨0, 3, 0⟩ : SchedState).barCount :=
  ⟨by decide, (slot_cycle_barCount.2.1 120 ⟨0, 3, 0⟩).2.2 (by decide)⟩
